import Mathlib

/-!
Shallow embedding of the NeuraPay transaction-analytics core (src/main.go):
the spending analyzer (analyzeTransactions, calculateVelocity), the
personality scorer (calculatePersonalityScores with its helpers
calculateMean and calculateVariance) and the archetype matcher
(matchArchetype), plus the two pieces of handler logic the claims touch
(the days-defaulting of the spending tool and the minimum-record guard of
the money-personality tool).

Modelling conventions:
* Go float64 values are idealized as rationals; every arithmetic step of
  the source maps to the same step over the rationals.
* math.Sqrt is the one operation with no exact rational counterpart; it is
  passed in as an explicit parameter sqrtF. No claim in scope depends on
  more than its pointwise non-negativity on non-negative inputs, which is
  taken as a hypothesis where needed.
* Go maps written once per key and then read are modelled as association
  lists in insertion order; a map read with the zero-value default is
  modelled by getScore (missing key reads 0, as in Go).
* sort.Slice carries no tie-order guarantee and iterates a Go map in
  unspecified order, so the sorted category list is modelled relationally:
  ValidCategoryOrder txs l holds exactly of the lists the source can
  produce (a permutation of the per-category totals, pairwise sorted by
  non-increasing amount).
-/

namespace NeuraPay

/-- One normalized transaction record, as both analyzers read it: the type
assertions with the two-result form in Go substitute zero values for
missing or wrongly typed fields, so every field is total here. -/
structure Tx where
  type : String
  amount : ℚ
  category : String
  balance_after : ℚ
deriving DecidableEq

/-! ## Spending analyzer (src/main.go, analyzeTransactions) -/

/-- Accumulator of the single pass over transactions in analyzeTransactions:
totalSpent, totalReceived, spendCount, receiveCount and the categorySpending
map (kept as an association list in first-encounter order). -/
structure SpendAcc where
  totalSpent : ℚ
  totalReceived : ℚ
  spendCount : ℕ
  receiveCount : ℕ
  cats : List (String × ℚ)
deriving DecidableEq

/-- Go map update m[c] += a on an association list: add to the existing
entry, or append a fresh entry at the end. -/
def addCat (l : List (String × ℚ)) (c : String) (a : ℚ) : List (String × ℚ) :=
  match l with
  | [] => [(c, a)]
  | (c0, a0) :: rest =>
      if c0 = c then (c0, a0 + a) :: rest else (c0, a0) :: addCat rest c a

/-- One step of the transaction loop of analyzeTransactions: the switch on
tx type updates the send totals (and, for a non-empty category, the
category map) or the receive totals, and ignores every other type. -/
def spendStep (acc : SpendAcc) (tx : Tx) : SpendAcc :=
  if tx.type = "send" then
    { acc with
      totalSpent := acc.totalSpent + tx.amount
      spendCount := acc.spendCount + 1
      cats := if tx.category = "" then acc.cats else addCat acc.cats tx.category tx.amount }
  else if tx.type = "receive" then
    { acc with
      totalReceived := acc.totalReceived + tx.amount
      receiveCount := acc.receiveCount + 1 }
  else acc

/-- The full accumulation pass of analyzeTransactions. -/
def spendAcc (txs : List Tx) : SpendAcc :=
  txs.foldl spendStep ⟨0, 0, 0, 0, []⟩

/-- The per-category send totals in first-encounter order (contents of the
categorySpending map of analyzeTransactions). -/
def categorySpending (txs : List Tx) : List (String × ℚ) :=
  (spendAcc txs).cats

/-- calculateVelocity: txPerWeek = count/days*7, classified by the switch
with cases txPerWeek < 2 and txPerWeek < 7. -/
def calculateVelocity (transactionCount : ℕ) (days : ℤ) : String :=
  let txPerWeek : ℚ := (transactionCount : ℚ) / (days : ℚ) * 7
  if txPerWeek < 2 then "low"
  else if txPerWeek < 7 then "moderate"
  else "high"

/-- The numeric fields of the result map of analyzeTransactions, before the
two-decimal display formatting applied by fmt.Sprintf. -/
structure Report where
  total_spent : ℚ
  total_received : ℚ
  net_cashflow : ℚ
  spend_count : ℕ
  receive_count : ℕ
  avg_daily_spend : ℚ
  velocity : String
deriving DecidableEq

/-- The report analyzeTransactions builds from the accumulated metrics on
the non-empty branch: net_cashflow = totalReceived - totalSpent and
avgDailySpend = totalSpent / days, exactly as in the Go return map. -/
def analyzeReport (txs : List Tx) (days : ℤ) : Report :=
  let a := spendAcc txs
  { total_spent := a.totalSpent
    total_received := a.totalReceived
    net_cashflow := a.totalReceived - a.totalSpent
    spend_count := a.spendCount
    receive_count := a.receiveCount
    avg_daily_spend := a.totalSpent / (days : ℚ)
    velocity := calculateVelocity a.spendCount days }

/-- Result of analyzeTransactions: the early return with only the no-data
summary on an empty input, or the full report. -/
inductive AnalysisResult
  | noData
  | report (r : Report)
deriving DecidableEq

/-- analyzeTransactions: empty input short-circuits to the no-data summary,
otherwise the report is built. -/
def analyzeTransactions (txs : List Tx) (days : ℤ) : AnalysisResult :=
  if txs = [] then .noData else .report (analyzeReport txs days)

/-- The days-defaulting of the analyze_spending handler: only an exact zero
is replaced by 30 (the params.Days == 0 check); every other value,
negative included, is passed through to analyzeTransactions. -/
def effectiveDays (d : ℤ) : ℤ :=
  if d = 0 then 30 else d

/-! ## Category ranking (relational, see header note on sort.Slice) -/

/-- Pairwise non-increasing by amount: the postcondition sort.Slice
guarantees for the comparator Amount i greater than Amount j. -/
def SortedByAmountDesc (l : List (String × ℚ)) : Prop :=
  l.Sorted (fun x y => y.2 ≤ x.2)

/-- The lists the source can present to the top-5 loop: some permutation of
the per-category totals (the Go map is iterated in unspecified order),
sorted non-increasingly by amount (no tie-order guarantee). -/
def ValidCategoryOrder (txs : List Tx) (l : List (String × ℚ)) : Prop :=
  l.Perm (categorySpending txs) ∧ SortedByAmountDesc l

/-- The top-5 retention loop over the sorted category list. -/
def topCategories (l : List (String × ℚ)) : List (String × ℚ) :=
  l.take 5

/-- Modelled from the spec wording for the tie-break refinement check only:
a stable descending sort of the first-encounter category totals, top 5
retained. The source does not implement this; it is the reference the
claimed tie-break is compared against. -/
def specTopCategories (txs : List Tx) : List (String × ℚ) :=
  (List.insertionSort (fun x y : String × ℚ => y.2 ≤ x.2) (categorySpending txs)).take 5

/-! ## Personality scorer (src/main.go, calculatePersonalityScores) -/

/-- Accumulator of the single pass of calculatePersonalityScores: the send
amounts, the positive balances, receive count and total, send total, count
of send records in the savings category, and the categorySpend map (a dead
store in the source, kept for fidelity). -/
structure PersAcc where
  amounts : List ℚ
  balances : List ℚ
  incomeCount : ℕ
  totalIncome : ℚ
  totalSpend : ℚ
  savingsTx : ℕ
  catSpend : List (String × ℚ)
deriving DecidableEq

/-- One step of the transaction loop of calculatePersonalityScores: the
send branch collects the amount (and category, and the savings counter),
the receive branch the income; a positive balance_after is collected for
every record regardless of its type. -/
def persStep (acc : PersAcc) (tx : Tx) : PersAcc :=
  let acc1 :=
    if tx.type = "send" then
      { acc with
        amounts := acc.amounts ++ [tx.amount]
        totalSpend := acc.totalSpend + tx.amount
        catSpend := addCat acc.catSpend tx.category tx.amount
        savingsTx := if tx.category = "savings" then acc.savingsTx + 1 else acc.savingsTx }
    else if tx.type = "receive" then
      { acc with
        incomeCount := acc.incomeCount + 1
        totalIncome := acc.totalIncome + tx.amount }
    else acc
  if 0 < tx.balance_after then { acc1 with balances := acc1.balances ++ [tx.balance_after] }
  else acc1

/-- The full accumulation pass of calculatePersonalityScores. -/
def persAcc (txs : List Tx) : PersAcc :=
  txs.foldl persStep ⟨[], [], 0, 0, 0, 0, []⟩

/-- calculateMean: zero on the empty list, else sum divided by length. -/
def calculateMean (values : List ℚ) : ℚ :=
  if values = [] then 0 else values.sum / (values.length : ℚ)

/-- calculateVariance: population variance, zero on the empty list. -/
def calculateVariance (values : List ℚ) : ℚ :=
  if values = [] then 0
  else
    let m := calculateMean values
    (values.map (fun v => (v - m) * (v - m))).sum / (values.length : ℚ)

/-- The minimum-balance loop: start from the first element, replace on
strictly smaller. Total function; only used under a non-emptiness guard,
matching the source. -/
def listMin (l : List ℚ) : ℚ :=
  l.foldl min (l.headD 0)

/-- Score 1, transaction velocity: min(len/4 * 10, 100) over the total
record count. -/
def velocityScore (txs : List Tx) : ℚ :=
  min ((txs.length : ℚ) / 4 * 10) 100

/-- Score 2, amount distribution: the coefficient of variation of the send
amounts times 100 when the mean is positive (else 0), capped at 100.
sqrtF stands for math.Sqrt. -/
def amountDistributionScore (sqrtF : ℚ → ℚ) (txs : List Tx) : ℚ :=
  let amounts := (persAcc txs).amounts
  let variance := calculateVariance amounts
  let m := calculateMean amounts
  min (if 0 < m then sqrtF variance / m * 100 else 0) 100

/-- Score 3, balance comfort: min balance over mean balance times 100 when
the mean is positive (else 0), capped at 100, over the positive balances. -/
def balanceComfortScore (txs : List Tx) : ℚ :=
  let balances := (persAcc txs).balances
  let avgBalance := calculateMean balances
  let minBalance := listMin balances
  min (if 0 < avgBalance then minBalance / avgBalance * 100 else 0) 100

/-- Score 4, savings affinity: savings send count over total record count,
times 100 times 3, capped at 100 (rate 0 when there are no records). -/
def savingsAffinityScore (txs : List Tx) : ℚ :=
  min (if 0 < txs.length then ((persAcc txs).savingsTx : ℚ) / (txs.length : ℚ) * 100 * 3 else 0) 100

/-- calculatePersonalityScores: the score map in insertion order.
transaction_velocity, savings_affinity and income_response are always
written; amount_distribution only when at least one send amount was
collected; balance_comfort only when at least one positive balance was
collected (the two len greater than zero guards of the source). -/
def calculatePersonalityScores (sqrtF : ℚ → ℚ) (txs : List Tx) : List (String × ℚ) :=
  [("transaction_velocity", velocityScore txs)]
    ++ (if (persAcc txs).amounts = [] then []
        else [("amount_distribution", amountDistributionScore sqrtF txs)])
    ++ (if (persAcc txs).balances = [] then []
        else [("balance_comfort", balanceComfortScore txs)])
    ++ [("savings_affinity", savingsAffinityScore txs), ("income_response", 50)]

/-- Go map read with the zero-value default: s[k] is 0 for a missing key. -/
def getScore (m : List (String × ℚ)) (k : String) : ℚ :=
  (m.lookup k).getD 0

/-! ## Archetype matcher (src/main.go, matchArchetype)

The five matcher closures below are the exact linear formulas of the
catalog; the static descriptive metadata of each archetype (emoji, traits,
triggers, strategies, fun fact) is constant text copied verbatim into the
result and plays no role in selection or confidence, so the archetype name
stands for the whole record here. -/

/-- The Reward Seeker matcher. -/
def rewardSeekerScore (s : String → ℚ) : ℚ :=
  s "transaction_velocity" * 0.4 + (100 - s "savings_affinity") * 0.3 + s "income_response" * 0.3

/-- The Safety Hoarder matcher. -/
def safetyHoarderScore (s : String → ℚ) : ℚ :=
  s "balance_comfort" * 0.4 + (100 - s "transaction_velocity") * 0.3 + s "savings_affinity" * 0.3

/-- The Impulse Optimizer matcher. -/
def impulseOptimizerScore (s : String → ℚ) : ℚ :=
  s "transaction_velocity" * 0.4 + (100 - s "amount_distribution") * 0.3 + (100 - s "savings_affinity") * 0.3

/-- The Cyclical Spender matcher. -/
def cyclicalSpenderScore (s : String → ℚ) : ℚ :=
  s "amount_distribution" * 0.4 + s "income_response" * 0.3 + (100 - s "balance_comfort") * 0.3

/-- The Strategic Planner matcher. -/
def strategicPlannerScore (s : String → ℚ) : ℚ :=
  (100 - s "amount_distribution") * 0.3 + s "savings_affinity" * 0.3 + (100 - s "income_response") * 0.2 + s "balance_comfort" * 0.2

/-- The fixed archetype catalog, in source order. -/
def archetypeCatalog : List (String × ((String → ℚ) → ℚ)) :=
  [("The Reward Seeker", rewardSeekerScore),
   ("The Safety Hoarder", safetyHoarderScore),
   ("The Impulse Optimizer", impulseOptimizerScore),
   ("The Cyclical Spender", cyclicalSpenderScore),
   ("The Strategic Planner", strategicPlannerScore)]

/-- The catalog with each matcher evaluated at the given score map. -/
def scoredCatalog (s : String → ℚ) : List (String × ℚ) :=
  archetypeCatalog.map (fun a => (a.1, a.2 s))

/-- The five formula values in catalog order. -/
def archetypeValues (s : String → ℚ) : List ℚ :=
  (scoredCatalog s).map (fun p => p.2)

/-- The selection loop of matchArchetype: bestMatch starts at the first
catalog entry but bestScore starts at 0.0, and an entry replaces the best
only on a strictly greater score. -/
def argmaxFold (b : String × ℚ) (l : List (String × ℚ)) : String × ℚ :=
  l.foldl (fun best p => if p.2 > best.2 then p else best) b

/-- The archetype name matchArchetype selects. -/
def selectArchetype (s : String → ℚ) : String :=
  (argmaxFold ("The Reward Seeker", 0) (scoredCatalog s)).1

/-- The five formula values sorted ascending (sort.Float64s). -/
def sortedArchetypeScores (s : String → ℚ) : List ℚ :=
  List.insertionSort (fun x y : ℚ => x ≤ y) (archetypeValues s)

/-- The confidence computation of matchArchetype: default 0.7, replaced by
min(0.5 + (highest - secondHighest)/100, 0.95) whenever at least two
sorted scores exist. -/
def matchConfidence (s : String → ℚ) : ℚ :=
  let ss := sortedArchetypeScores s
  if 2 ≤ ss.length then
    min (0.5 + (ss.getD (ss.length - 1) 0 - ss.getD (ss.length - 2) 0) / 100) 0.95
  else 0.7

/-- The true maximum of the five formula values, for the refinement
comparison: max of the catalog-order value list. -/
def maxArchetypeValue (s : String → ℚ) : ℚ :=
  max (max (max (max (rewardSeekerScore s) (safetyHoarderScore s)) (impulseOptimizerScore s))
    (cyclicalSpenderScore s)) (strategicPlannerScore s)

/-- Modelled from the spec wording for the selection refinement check only:
the first catalog entry attaining the strict maximum of the five formula
values. The selection the source actually implements is selectArchetype. -/
def specSelectArchetype (s : String → ℚ) : String :=
  (((scoredCatalog s).find? (fun p => p.2 = maxArchetypeValue s)).map (fun p => p.1)).getD
    "The Reward Seeker"

/-- The fields of the matchArchetype result the claims are about: the
selected archetype and the confidence. -/
structure MatchResult where
  type : String
  confidence : ℚ
deriving DecidableEq

/-- matchArchetype: selection plus confidence. -/
def matchArchetype (s : String → ℚ) : MatchResult :=
  ⟨selectArchetype s, matchConfidence s⟩

/-! ## Money-personality tool handler (post-fetch logic) -/

/-- The shape of core.ToolResult as the claims use it: the success flag,
the error string, and the personality profile carried in Data. -/
structure ToolResult where
  success : Bool
  error : Option String
  profile : Option MatchResult
deriving DecidableEq

/-- The post-fetch logic of the analyze_money_personality handler: fewer
than 10 records short-circuits to a structured failure before any scoring;
otherwise the scores are computed and matched. -/
def moneyPersonality (sqrtF : ℚ → ℚ) (txs : List Tx) : ToolResult :=
  if txs.length < 10 then
    ⟨false, some "Need at least 10 transactions for accurate personality analysis", none⟩
  else
    ⟨true, none, some (matchArchetype (getScore (calculatePersonalityScores sqrtF txs)))⟩

/-! ## Reference functions for the accumulator characterizations -/

/-- The amounts of the send records, in order. -/
def sendAmounts (txs : List Tx) : List ℚ :=
  (txs.filter (fun t => t.type = "send")).map (fun t => t.amount)

/-- The amounts of the receive records, in order. -/
def receiveAmounts (txs : List Tx) : List ℚ :=
  (txs.filter (fun t => t.type = "receive")).map (fun t => t.amount)

/-- The positive balance_after values, in order. -/
def posBalances (txs : List Tx) : List ℚ :=
  (txs.filter (fun t => 0 < t.balance_after)).map (fun t => t.balance_after)

/-- The send records in the savings category. -/
def savingsSends (txs : List Tx) : List Tx :=
  txs.filter (fun t => t.type = "send" ∧ t.category = "savings")

/-! ## Characterization of the spending accumulator -/

theorem spendStep_unknown (acc : SpendAcc) (tx : Tx) (hs : tx.type ≠ "send")
    (hr : tx.type ≠ "receive") : spendStep acc tx = acc := by
  simp [spendStep, hs, hr]

theorem foldl_spendStep_totalSpent (l : List Tx) :
    ∀ acc : SpendAcc, (l.foldl spendStep acc).totalSpent = acc.totalSpent + (sendAmounts l).sum := by
  induction l with
  | nil => intro acc; simp [sendAmounts]
  | cons t l ih =>
    intro acc
    rw [List.foldl_cons, ih]
    by_cases hs : t.type = "send"
    · simp [spendStep, hs, sendAmounts, List.filter_cons]
      ring
    · by_cases hr : t.type = "receive" <;>
        simp [spendStep, hs, hr, sendAmounts, List.filter_cons]

theorem foldl_spendStep_totalReceived (l : List Tx) :
    ∀ acc : SpendAcc,
      (l.foldl spendStep acc).totalReceived = acc.totalReceived + (receiveAmounts l).sum := by
  induction l with
  | nil => intro acc; simp [receiveAmounts]
  | cons t l ih =>
    intro acc
    rw [List.foldl_cons, ih]
    by_cases hs : t.type = "send"
    · have hr : t.type ≠ "receive" := by simp [hs]
      simp [spendStep, hs, hr, receiveAmounts, List.filter_cons]
    · by_cases hr : t.type = "receive"
      · simp [spendStep, hs, hr, receiveAmounts, List.filter_cons]
        ring
      · simp [spendStep, hs, hr, receiveAmounts, List.filter_cons]

theorem foldl_spendStep_spendCount (l : List Tx) :
    ∀ acc : SpendAcc,
      (l.foldl spendStep acc).spendCount
        = acc.spendCount + (l.filter (fun t => t.type = "send")).length := by
  induction l with
  | nil => intro acc; simp
  | cons t l ih =>
    intro acc
    rw [List.foldl_cons, ih]
    by_cases hs : t.type = "send"
    · simp [spendStep, hs, List.filter_cons]
      ring
    · by_cases hr : t.type = "receive" <;> simp [spendStep, hs, hr, List.filter_cons]

theorem foldl_spendStep_receiveCount (l : List Tx) :
    ∀ acc : SpendAcc,
      (l.foldl spendStep acc).receiveCount
        = acc.receiveCount + (l.filter (fun t => t.type = "receive")).length := by
  induction l with
  | nil => intro acc; simp
  | cons t l ih =>
    intro acc
    rw [List.foldl_cons, ih]
    by_cases hs : t.type = "send"
    · have hr : t.type ≠ "receive" := by simp [hs]
      simp [spendStep, hs, hr, List.filter_cons]
    · by_cases hr : t.type = "receive"
      · simp [spendStep, hs, hr, List.filter_cons]
        ring
      · simp [spendStep, hs, hr, List.filter_cons]

theorem spendAcc_totalSpent (txs : List Tx) :
    (spendAcc txs).totalSpent = (sendAmounts txs).sum := by
  simp [spendAcc, foldl_spendStep_totalSpent]

theorem spendAcc_totalReceived (txs : List Tx) :
    (spendAcc txs).totalReceived = (receiveAmounts txs).sum := by
  simp [spendAcc, foldl_spendStep_totalReceived]

theorem spendAcc_spendCount (txs : List Tx) :
    (spendAcc txs).spendCount = (txs.filter (fun t => t.type = "send")).length := by
  simp [spendAcc, foldl_spendStep_spendCount]

theorem sendAmounts_sum_nonneg (txs : List Tx) (h : ∀ tx ∈ txs, 0 ≤ tx.amount) :
    0 ≤ (sendAmounts txs).sum := by
  apply List.sum_nonneg
  intro x hx
  simp only [sendAmounts, List.mem_map, List.mem_filter] at hx
  obtain ⟨t, ⟨ht, _⟩, rfl⟩ := hx
  exact h t ht

/-! ## Claim C1 -/

/-- C1: for every non-empty record list the spending analyzer reports
totalSpent equal to the sum of the send amounts, totalReceived equal to
the sum of the receive amounts, and netCashflow exactly equal to
totalReceived minus totalSpent, before the two-decimal display format. -/
theorem spending_totals_exact (txs : List Tx) (days : ℤ) (h : txs ≠ []) :
    analyzeTransactions txs days = .report (analyzeReport txs days)
    ∧ (analyzeReport txs days).total_spent = (sendAmounts txs).sum
    ∧ (analyzeReport txs days).total_received = (receiveAmounts txs).sum
    ∧ (analyzeReport txs days).net_cashflow
        = (analyzeReport txs days).total_received - (analyzeReport txs days).total_spent := by
  refine ⟨by simp [analyzeTransactions, h], ?_, ?_, ?_⟩ <;>
    simp [analyzeReport, spendAcc_totalSpent, spendAcc_totalReceived]

/-- Witness for C1 at the end-to-end example of the spec: one 50 send and
one 1000 receive over 30 days. -/
theorem spending_totals_exact_witness :
    ([⟨"send", 50, "food", 0⟩, ⟨"receive", 1000, "", 0⟩] : List Tx) ≠ []
    ∧ (analyzeReport [⟨"send", 50, "food", 0⟩, ⟨"receive", 1000, "", 0⟩] 30).total_spent = 50
    ∧ (analyzeReport [⟨"send", 50, "food", 0⟩, ⟨"receive", 1000, "", 0⟩] 30).net_cashflow
        = (analyzeReport [⟨"send", 50, "food", 0⟩, ⟨"receive", 1000, "", 0⟩] 30).total_received
          - (analyzeReport [⟨"send", 50, "food", 0⟩, ⟨"receive", 1000, "", 0⟩] 30).total_spent := by
  have h := spending_totals_exact [⟨"send", 50, "food", 0⟩, ⟨"receive", 1000, "", 0⟩] 30
    (by simp)
  refine ⟨by simp, ?_, h.2.2.2⟩
  rw [h.2.1]
  simp [sendAmounts]

/-! ## Claim C2 -/

/-- C2: for spendCount at least 0 and windowDays positive, the velocity
classification from transactions-per-week = spendCount/windowDays*7 is
low below 2, moderate from 2 up to below 7, high from 7 on, with
inclusive-low boundaries; in particular with windowDays = 7 a spendCount
of 2 is moderate, 7 is high and 1 is low. -/
theorem velocity_classification (c : ℕ) (d : ℤ) (hd : 0 < d) :
    (((c : ℚ) / (d : ℚ) * 7 < 2 → calculateVelocity c d = "low")
      ∧ (2 ≤ (c : ℚ) / (d : ℚ) * 7 → (c : ℚ) / (d : ℚ) * 7 < 7 →
          calculateVelocity c d = "moderate")
      ∧ (7 ≤ (c : ℚ) / (d : ℚ) * 7 → calculateVelocity c d = "high"))
    ∧ calculateVelocity 2 7 = "moderate"
    ∧ calculateVelocity 7 7 = "high"
    ∧ calculateVelocity 1 7 = "low" := by
  refine ⟨⟨fun h => by simp [calculateVelocity, h],
    fun h1 h2 => by simp [calculateVelocity, not_lt.mpr h1, h2],
    fun h => by simp [calculateVelocity, not_lt.mpr (by linarith : (2:ℚ) ≤ (c : ℚ) / (d : ℚ) * 7),
      not_lt.mpr h]⟩, ?_, ?_, ?_⟩ <;> simp [calculateVelocity] <;> norm_num

/-- Witness for C2 at the boundary instances windowDays = 7 with
spendCount 2, 7 and 1. -/
theorem velocity_classification_witness :
    calculateVelocity 2 7 = "moderate"
    ∧ calculateVelocity 7 7 = "high"
    ∧ calculateVelocity 1 7 = "low" :=
  (velocity_classification 2 7 (by norm_num)).2

/-! ## Claim C10 -/

/-- C10: the spending tool defaults only an exact 0 days to 30, so a
negative days value reaches the analyzer; there the analyzer still
produces the full report, avg_daily_spend equals totalSpent/days and is
non-positive, and the velocity classification is low. -/
theorem negative_days_behavior (txs : List Tx) (d : ℤ) (hne : txs ≠ []) (hd : d < 0)
    (hamt : ∀ tx ∈ txs, 0 ≤ tx.amount) :
    effectiveDays d = d
    ∧ analyzeTransactions txs d = .report (analyzeReport txs d)
    ∧ (analyzeReport txs d).avg_daily_spend = (spendAcc txs).totalSpent / (d : ℚ)
    ∧ (analyzeReport txs d).avg_daily_spend ≤ 0
    ∧ (analyzeReport txs d).velocity = "low" := by
  have hdq : (d : ℚ) < 0 := by exact_mod_cast hd
  have hspent : 0 ≤ (spendAcc txs).totalSpent := by
    rw [spendAcc_totalSpent]; exact sendAmounts_sum_nonneg txs hamt
  refine ⟨by simp [effectiveDays, hd.ne], by simp [analyzeTransactions, hne],
    by simp [analyzeReport], ?_, ?_⟩
  · show (analyzeReport txs d).avg_daily_spend ≤ 0
    have : (spendAcc txs).totalSpent / (d : ℚ) ≤ 0 :=
      div_nonpos_iff.mpr (Or.inl ⟨hspent, hdq.le⟩)
    simpa [analyzeReport] using this
  · have hcd : ((spendAcc txs).spendCount : ℚ) / (d : ℚ) ≤ 0 :=
      div_nonpos_iff.mpr (Or.inl ⟨Nat.cast_nonneg _, hdq.le⟩)
    have ht : ((spendAcc txs).spendCount : ℚ) / (d : ℚ) * 7 < 2 := by nlinarith
    simp [analyzeReport, calculateVelocity, ht]

/-- Witness for C10: a single 1 send record analyzed over minus 5 days. -/
theorem negative_days_behavior_witness :
    effectiveDays (-5) = -5
    ∧ (analyzeReport [⟨"send", 1, "", 0⟩] (-5)).avg_daily_spend ≤ 0
    ∧ (analyzeReport [⟨"send", 1, "", 0⟩] (-5)).velocity = "low" := by
  have h := negative_days_behavior [⟨"send", 1, "", 0⟩] (-5) (by simp) (by norm_num)
    (by intro tx htx; simp at htx; simp [htx])
  exact ⟨h.1, h.2.2.2.1, h.2.2.2.2⟩

/-! ## Characterization of the personality accumulator -/

theorem persStep_amounts (acc : PersAcc) (tx : Tx) :
    (persStep acc tx).amounts
      = acc.amounts ++ (if tx.type = "send" then [tx.amount] else []) := by
  unfold persStep
  by_cases hs : tx.type = "send" <;> by_cases hr : tx.type = "receive" <;>
    by_cases hb : 0 < tx.balance_after <;> simp [hs, hr, hb]

theorem persStep_balances (acc : PersAcc) (tx : Tx) :
    (persStep acc tx).balances
      = acc.balances ++ (if 0 < tx.balance_after then [tx.balance_after] else []) := by
  unfold persStep
  by_cases hs : tx.type = "send" <;> by_cases hr : tx.type = "receive" <;>
    by_cases hb : 0 < tx.balance_after <;> simp [hs, hr, hb]

theorem persStep_totalSpend (acc : PersAcc) (tx : Tx) :
    (persStep acc tx).totalSpend
      = acc.totalSpend + (if tx.type = "send" then tx.amount else 0) := by
  unfold persStep
  by_cases hs : tx.type = "send" <;> by_cases hr : tx.type = "receive" <;>
    by_cases hb : 0 < tx.balance_after <;> simp [hs, hr, hb]

theorem persStep_incomeCount (acc : PersAcc) (tx : Tx) :
    (persStep acc tx).incomeCount
      = acc.incomeCount + (if tx.type = "receive" then 1 else 0) := by
  unfold persStep
  by_cases hs : tx.type = "send" <;> by_cases hr : tx.type = "receive" <;>
    by_cases hb : 0 < tx.balance_after <;> simp [hs, hr, hb]

theorem persStep_totalIncome (acc : PersAcc) (tx : Tx) :
    (persStep acc tx).totalIncome
      = acc.totalIncome + (if tx.type = "receive" then tx.amount else 0) := by
  unfold persStep
  by_cases hs : tx.type = "send" <;> by_cases hr : tx.type = "receive" <;>
    by_cases hb : 0 < tx.balance_after <;> simp [hs, hr, hb]

theorem persStep_savingsTx (acc : PersAcc) (tx : Tx) :
    (persStep acc tx).savingsTx
      = acc.savingsTx
        + (if tx.type = "send" ∧ tx.category = "savings" then 1 else 0) := by
  unfold persStep
  by_cases hs : tx.type = "send" <;> by_cases hr : tx.type = "receive" <;>
    by_cases hc : tx.category = "savings" <;>
    by_cases hb : 0 < tx.balance_after <;> simp [hs, hr, hc, hb]

theorem foldl_persStep_amounts (l : List Tx) :
    ∀ acc : PersAcc, (l.foldl persStep acc).amounts = acc.amounts ++ sendAmounts l := by
  induction l with
  | nil => intro acc; simp [sendAmounts]
  | cons t l ih =>
    intro acc
    rw [List.foldl_cons, ih, persStep_amounts]
    by_cases hs : t.type = "send" <;> simp [hs, sendAmounts, List.filter_cons]

theorem foldl_persStep_balances (l : List Tx) :
    ∀ acc : PersAcc, (l.foldl persStep acc).balances = acc.balances ++ posBalances l := by
  induction l with
  | nil => intro acc; simp [posBalances]
  | cons t l ih =>
    intro acc
    rw [List.foldl_cons, ih, persStep_balances]
    by_cases hb : 0 < t.balance_after <;> simp [hb, posBalances, List.filter_cons]

theorem foldl_persStep_totalSpend (l : List Tx) :
    ∀ acc : PersAcc,
      (l.foldl persStep acc).totalSpend = acc.totalSpend + (sendAmounts l).sum := by
  induction l with
  | nil => intro acc; simp [sendAmounts]
  | cons t l ih =>
    intro acc
    rw [List.foldl_cons, ih, persStep_totalSpend]
    by_cases hs : t.type = "send" <;>
      simp [hs, sendAmounts, List.filter_cons] <;> ring

theorem foldl_persStep_incomeCount (l : List Tx) :
    ∀ acc : PersAcc,
      (l.foldl persStep acc).incomeCount
        = acc.incomeCount + (l.filter (fun t => t.type = "receive")).length := by
  induction l with
  | nil => intro acc; simp
  | cons t l ih =>
    intro acc
    rw [List.foldl_cons, ih, persStep_incomeCount]
    by_cases hr : t.type = "receive" <;> simp [hr, List.filter_cons] <;> ring

theorem foldl_persStep_totalIncome (l : List Tx) :
    ∀ acc : PersAcc,
      (l.foldl persStep acc).totalIncome = acc.totalIncome + (receiveAmounts l).sum := by
  induction l with
  | nil => intro acc; simp [receiveAmounts]
  | cons t l ih =>
    intro acc
    rw [List.foldl_cons, ih, persStep_totalIncome]
    by_cases hr : t.type = "receive" <;>
      simp [hr, receiveAmounts, List.filter_cons] <;> ring

theorem foldl_persStep_savingsTx (l : List Tx) :
    ∀ acc : PersAcc,
      (l.foldl persStep acc).savingsTx = acc.savingsTx + (savingsSends l).length := by
  induction l with
  | nil => intro acc; simp [savingsSends]
  | cons t l ih =>
    intro acc
    rw [List.foldl_cons, ih, persStep_savingsTx]
    by_cases hs : t.type = "send" ∧ t.category = "savings" <;>
      simp [hs, savingsSends, List.filter_cons] <;> ring

theorem persAcc_amounts (txs : List Tx) : (persAcc txs).amounts = sendAmounts txs := by
  simp [persAcc, foldl_persStep_amounts]

theorem persAcc_balances (txs : List Tx) : (persAcc txs).balances = posBalances txs := by
  simp [persAcc, foldl_persStep_balances]

theorem persAcc_totalSpend (txs : List Tx) :
    (persAcc txs).totalSpend = (sendAmounts txs).sum := by
  simp [persAcc, foldl_persStep_totalSpend]

theorem persAcc_incomeCount (txs : List Tx) :
    (persAcc txs).incomeCount = (txs.filter (fun t => t.type = "receive")).length := by
  simp [persAcc, foldl_persStep_incomeCount]

theorem persAcc_totalIncome (txs : List Tx) :
    (persAcc txs).totalIncome = (receiveAmounts txs).sum := by
  simp [persAcc, foldl_persStep_totalIncome]

theorem persAcc_savingsTx (txs : List Tx) :
    (persAcc txs).savingsTx = (savingsSends txs).length := by
  simp [persAcc, foldl_persStep_savingsTx]

theorem posBalances_pos (txs : List Tx) : ∀ b ∈ posBalances txs, 0 < b := by
  intro b hb
  simp only [posBalances, List.mem_map, List.mem_filter] at hb
  obtain ⟨t, ⟨_, ht⟩, rfl⟩ := hb
  exact of_decide_eq_true ht

/-! ## Association list lookup helpers -/

theorem lookup_mem {l : List (String × ℚ)} {k : String} {v : ℚ}
    (h : l.lookup k = some v) : (k, v) ∈ l := by
  induction l with
  | nil => simp [List.lookup] at h
  | cons p l ih =>
    obtain ⟨k1, v1⟩ := p
    by_cases hk : k = k1
    · subst hk
      simp [List.lookup] at h
      simp [h]
    · have hb : (k == k1) = false := beq_eq_false_iff_ne.mpr hk
      simp only [List.lookup, hb] at h
      exact List.mem_cons_of_mem _ (ih h)

/-! ## Characterization of the score map -/

theorem scores_lookup_velocity (sq : ℚ → ℚ) (txs : List Tx) :
    (calculatePersonalityScores sq txs).lookup "transaction_velocity"
      = some (velocityScore txs) := by
  unfold calculatePersonalityScores
  by_cases ha : (persAcc txs).amounts = [] <;> by_cases hb2 : (persAcc txs).balances = [] <;>
    simp [ha, hb2, List.lookup]

theorem scores_lookup_amount_distribution (sq : ℚ → ℚ) (txs : List Tx) :
    (calculatePersonalityScores sq txs).lookup "amount_distribution"
      = if sendAmounts txs = [] then none else some (amountDistributionScore sq txs) := by
  unfold calculatePersonalityScores
  rw [persAcc_amounts, persAcc_balances]
  by_cases ha : sendAmounts txs = [] <;> by_cases hb2 : posBalances txs = [] <;>
    simp [ha, hb2, List.lookup]

theorem scores_lookup_balance_comfort (sq : ℚ → ℚ) (txs : List Tx) :
    (calculatePersonalityScores sq txs).lookup "balance_comfort"
      = if posBalances txs = [] then none else some (balanceComfortScore txs) := by
  unfold calculatePersonalityScores
  rw [persAcc_amounts, persAcc_balances]
  by_cases ha : sendAmounts txs = [] <;> by_cases hb2 : posBalances txs = [] <;>
    simp [ha, hb2, List.lookup]

theorem scores_lookup_savings_affinity (sq : ℚ → ℚ) (txs : List Tx) :
    (calculatePersonalityScores sq txs).lookup "savings_affinity"
      = some (savingsAffinityScore txs) := by
  unfold calculatePersonalityScores
  by_cases ha : (persAcc txs).amounts = [] <;> by_cases hb2 : (persAcc txs).balances = [] <;>
    simp [ha, hb2, List.lookup]

theorem scores_lookup_income_response (sq : ℚ → ℚ) (txs : List Tx) :
    (calculatePersonalityScores sq txs).lookup "income_response" = some 50 := by
  unfold calculatePersonalityScores
  by_cases ha : (persAcc txs).amounts = [] <;> by_cases hb2 : (persAcc txs).balances = [] <;>
    simp [ha, hb2, List.lookup]

theorem scores_keys (sq : ℚ → ℚ) (txs : List Tx) :
    (calculatePersonalityScores sq txs).map Prod.fst
      = ["transaction_velocity"]
        ++ (if sendAmounts txs = [] then [] else ["amount_distribution"])
        ++ (if posBalances txs = [] then [] else ["balance_comfort"])
        ++ ["savings_affinity", "income_response"] := by
  unfold calculatePersonalityScores
  rw [persAcc_amounts, persAcc_balances]
  by_cases ha : sendAmounts txs = [] <;> by_cases hb2 : posBalances txs = [] <;>
    simp [ha, hb2]

/-! ## Claim C4 (corrected) -/

/-- A record list with ten receive transactions and no send and no positive
balance: the scorer writes neither amount_distribution nor balance_comfort
on it. -/
def tenReceives : List Tx :=
  List.replicate 10 ⟨"receive", 0, "", 0⟩

/-- Counterexample to C4 as stated: on a record list with no send records
the score map of the Personality Scorer has no amount_distribution key at
all (and only three keys in total), while the claim asserts the key is
always present and equal to 0 in that case. -/
theorem personality_keys_counterexample :
    (calculatePersonalityScores (fun _ => 0) tenReceives).lookup "amount_distribution" = none
    ∧ (calculatePersonalityScores (fun _ => 0) tenReceives).map Prod.fst
        = ["transaction_velocity", "savings_affinity", "income_response"] := by
  have ha : sendAmounts tenReceives = [] := by decide
  have hb : posBalances tenReceives = [] := by decide
  constructor
  · rw [scores_lookup_amount_distribution, if_pos ha]
  · rw [scores_keys, ha, hb]
    simp

/-- C4 amended: the score map always contains transaction_velocity,
savings_affinity and income_response (the latter equal to 50); it contains
amount_distribution exactly when at least one send record exists, and in
that case the value is 0 whenever the mean send amount is not positive; it
contains balance_comfort exactly when some record has a positive
balance_after. -/
theorem personality_keys_characterization (sq : ℚ → ℚ) (txs : List Tx) :
    (calculatePersonalityScores sq txs).map Prod.fst
      = ["transaction_velocity"]
        ++ (if sendAmounts txs = [] then [] else ["amount_distribution"])
        ++ (if posBalances txs = [] then [] else ["balance_comfort"])
        ++ ["savings_affinity", "income_response"]
    ∧ (calculatePersonalityScores sq txs).lookup "transaction_velocity"
        = some (velocityScore txs)
    ∧ (calculatePersonalityScores sq txs).lookup "savings_affinity"
        = some (savingsAffinityScore txs)
    ∧ (calculatePersonalityScores sq txs).lookup "income_response" = some 50
    ∧ (sendAmounts txs ≠ [] → calculateMean (sendAmounts txs) ≤ 0 →
        (calculatePersonalityScores sq txs).lookup "amount_distribution" = some 0)
    ∧ ((calculatePersonalityScores sq txs).lookup "balance_comfort" = none
        ↔ posBalances txs = []) := by
  refine ⟨scores_keys sq txs, scores_lookup_velocity sq txs,
    scores_lookup_savings_affinity sq txs, scores_lookup_income_response sq txs, ?_, ?_⟩
  · intro hne hm
    rw [scores_lookup_amount_distribution, if_neg hne]
    have hval : amountDistributionScore sq txs = 0 := by
      unfold amountDistributionScore
      rw [persAcc_amounts]
      norm_num [not_lt.mpr hm]
    rw [hval]
  · rw [scores_lookup_balance_comfort]
    by_cases hb2 : posBalances txs = [] <;> simp [hb2]

/-- Witness for C4 amended: one 5 send and nine receives; the mean send
amount is positive so the conditional conclusions are exercised on the
always-present keys. -/
theorem personality_keys_characterization_witness :
    (calculatePersonalityScores (fun _ => 0) (⟨"send", 0, "", 0⟩ :: tenReceives)).lookup
        "amount_distribution" = some 0
    ∧ (calculatePersonalityScores (fun _ => 0) (⟨"send", 0, "", 0⟩ :: tenReceives)).lookup
        "income_response" = some 50 := by
  have h := personality_keys_characterization (fun _ => 0) (⟨"send", 0, "", 0⟩ :: tenReceives)
  refine ⟨h.2.2.2.2.1 (by decide) ?_, h.2.2.2.1⟩
  have : sendAmounts (⟨"send", 0, "", 0⟩ :: tenReceives) = [0] := by decide
  rw [this]
  norm_num [calculateMean]

/-! ## Claim C5 -/

/-- C5: on fewer than 10 records the money-personality operation returns a
structured failure, success false with the insufficient-data error
message, and carries no personality profile. -/
theorem insufficient_data_guard (sq : ℚ → ℚ) (txs : List Tx) (h : txs.length < 10) :
    moneyPersonality sq txs
      = ⟨false, some "Need at least 10 transactions for accurate personality analysis", none⟩ := by
  simp [moneyPersonality, h]

/-- Witness for C5 at the empty record list. -/
theorem insufficient_data_guard_witness :
    moneyPersonality (fun _ => 0) []
      = ⟨false, some "Need at least 10 transactions for accurate personality analysis", none⟩ :=
  insufficient_data_guard (fun _ => 0) [] (by simp)

/-! ## Bounds of the five scores -/

theorem calculateVariance_nonneg (l : List ℚ) : 0 ≤ calculateVariance l := by
  unfold calculateVariance
  by_cases h : l = []
  · simp [h]
  · rw [if_neg h]
    apply div_nonneg _ (by positivity)
    apply List.sum_nonneg
    intro x hx
    simp only [List.mem_map] at hx
    obtain ⟨v, _, rfl⟩ := hx
    exact mul_self_nonneg _

theorem foldl_min_nonneg (l : List ℚ) :
    ∀ init : ℚ, 0 ≤ init → (∀ x ∈ l, 0 ≤ x) → 0 ≤ l.foldl min init := by
  induction l with
  | nil => intro init h _; simpa using h
  | cons x l ih =>
    intro init hinit hall
    rw [List.foldl_cons]
    exact ih _ (le_min hinit (hall x (by simp))) (fun y hy => hall y (by simp [hy]))

theorem listMin_nonneg (l : List ℚ) (h : ∀ x ∈ l, 0 ≤ x) : 0 ≤ listMin l := by
  unfold listMin
  apply foldl_min_nonneg l _ _ h
  cases l with
  | nil => simp
  | cons x l => simpa using h x (by simp)

theorem velocityScore_bounds (txs : List Tx) :
    0 ≤ velocityScore txs ∧ velocityScore txs ≤ 100 := by
  unfold velocityScore
  exact ⟨le_min (by positivity) (by norm_num), min_le_right _ _⟩

theorem amountDistributionScore_bounds (sq : ℚ → ℚ) (hsq : ∀ x, 0 ≤ x → 0 ≤ sq x)
    (txs : List Tx) :
    0 ≤ amountDistributionScore sq txs ∧ amountDistributionScore sq txs ≤ 100 := by
  unfold amountDistributionScore
  refine ⟨le_min ?_ (by norm_num), min_le_right _ _⟩
  by_cases hm : 0 < calculateMean (persAcc txs).amounts
  · rw [if_pos hm]
    have hs := hsq _ (calculateVariance_nonneg (persAcc txs).amounts)
    exact mul_nonneg (div_nonneg hs hm.le) (by norm_num)
  · rw [if_neg hm]

theorem balanceComfortScore_bounds (txs : List Tx) :
    0 ≤ balanceComfortScore txs ∧ balanceComfortScore txs ≤ 100 := by
  unfold balanceComfortScore
  refine ⟨le_min ?_ (by norm_num), min_le_right _ _⟩
  by_cases hm : 0 < calculateMean (persAcc txs).balances
  · rw [if_pos hm]
    have hmin : 0 ≤ listMin (persAcc txs).balances := by
      apply listMin_nonneg
      intro x hx
      rw [persAcc_balances] at hx
      exact (posBalances_pos txs x hx).le
    exact mul_nonneg (div_nonneg hmin hm.le) (by norm_num)
  · rw [if_neg hm]

theorem savingsAffinityScore_bounds (txs : List Tx) :
    0 ≤ savingsAffinityScore txs ∧ savingsAffinityScore txs ≤ 100 := by
  unfold savingsAffinityScore
  refine ⟨le_min ?_ (by norm_num), min_le_right _ _⟩
  by_cases hl : 0 < txs.length
  · rw [if_pos hl]
    positivity
  · rw [if_neg hl]

/-! ## Claim C8 -/

/-- C8: with non-negative amounts (and math.Sqrt non-negative on
non-negative inputs), every value present in the score map of the
Personality Scorer lies in the interval from 0 to 100. -/
theorem personality_scores_in_range (sq : ℚ → ℚ) (hsq : ∀ x, 0 ≤ x → 0 ≤ sq x)
    (txs : List Tx) (hamt : ∀ tx ∈ txs, 0 ≤ tx.amount) (k : String) (v : ℚ)
    (h : (calculatePersonalityScores sq txs).lookup k = some v) :
    0 ≤ v ∧ v ≤ 100 := by
  have hmem := lookup_mem h
  have hv : v = velocityScore txs ∨ v = amountDistributionScore sq txs
      ∨ v = balanceComfortScore txs ∨ v = savingsAffinityScore txs ∨ v = 50 := by
    by_cases ha : (persAcc txs).amounts = [] <;> by_cases hb2 : (persAcc txs).balances = [] <;>
      simp [calculatePersonalityScores, ha, hb2] at hmem <;> tauto
  rcases hv with rfl | rfl | rfl | rfl | rfl
  · exact velocityScore_bounds txs
  · exact amountDistributionScore_bounds sq hsq txs
  · exact balanceComfortScore_bounds txs
  · exact savingsAffinityScore_bounds txs
  · norm_num

/-- Witness for C8: the ten-receive list with the zero function for
math.Sqrt; the income_response entry evaluates to 50 and the theorem
places it in range. -/
theorem personality_scores_in_range_witness :
    (calculatePersonalityScores (fun _ => 0) tenReceives).lookup "income_response" = some 50
    ∧ (0 ≤ (50 : ℚ) ∧ (50 : ℚ) ≤ 100) := by
  have hl : (calculatePersonalityScores (fun _ => 0) tenReceives).lookup "income_response"
      = some 50 := scores_lookup_income_response (fun _ => 0) tenReceives
  exact ⟨hl, personality_scores_in_range (fun _ => 0) (fun x _ => le_refl 0) tenReceives
    (by decide) "income_response" 50 hl⟩

/-! ## Claim C9 (corrected) -/

/-- Four receive records: the total record count, which the scorer divides
by, is 4. -/
def fourReceives : List Tx :=
  List.replicate 4 ⟨"receive", 0, "", 0⟩

/-- A record whose type is neither send nor receive. -/
def unknownTx : Tx :=
  ⟨"transfer", 5, "food", 0⟩

/-- Counterexample to C9 as stated: adding an unrecognized-type record
changes the output of the Personality Scorer, because transaction_velocity
divides by the total record count, which the added record increases. -/
theorem unrecognized_type_counterexample :
    calculatePersonalityScores (fun _ => 0) (fourReceives ++ [unknownTx])
      ≠ calculatePersonalityScores (fun _ => 0) fourReceives := by
  intro heq
  have h1 := scores_lookup_velocity (fun _ => 0) (fourReceives ++ [unknownTx])
  rw [heq, scores_lookup_velocity (fun _ => 0) fourReceives] at h1
  have h2 := Option.some.inj h1
  have hlen1 : ((fourReceives ++ [unknownTx]) : List Tx).length = 5 := by decide
  have hlen2 : (fourReceives : List Tx).length = 4 := by decide
  rw [velocityScore, velocityScore, hlen1, hlen2] at h2
  norm_num at h2

/-- C9 amended: a record whose type is neither send nor receive is ignored
by the whole spending analyzer (report and category totals alike, for a
non-empty base list), and its amount and category are ignored by the
Personality Scorer (the send-amount statistics, the income statistics and
the savings counter are unchanged, hence so are the amount_distribution
and income_response entries); but the scorer still counts the record in
the record total and still collects a positive balance_after, so
transaction_velocity, savings_affinity and balance_comfort can change. -/
theorem unrecognized_type_effect (sq : ℚ → ℚ) (l1 l2 : List Tx) (d : ℤ) (tx : Tx)
    (hs : tx.type ≠ "send") (hr : tx.type ≠ "receive") :
    analyzeReport (l1 ++ tx :: l2) d = analyzeReport (l1 ++ l2) d
    ∧ categorySpending (l1 ++ tx :: l2) = categorySpending (l1 ++ l2)
    ∧ (l1 ++ l2 ≠ [] →
        analyzeTransactions (l1 ++ tx :: l2) d = analyzeTransactions (l1 ++ l2) d)
    ∧ (calculatePersonalityScores sq (l1 ++ tx :: l2)).lookup "amount_distribution"
        = (calculatePersonalityScores sq (l1 ++ l2)).lookup "amount_distribution"
    ∧ (calculatePersonalityScores sq (l1 ++ tx :: l2)).lookup "income_response"
        = (calculatePersonalityScores sq (l1 ++ l2)).lookup "income_response"
    ∧ (persAcc (l1 ++ tx :: l2)).amounts = (persAcc (l1 ++ l2)).amounts
    ∧ (persAcc (l1 ++ tx :: l2)).totalSpend = (persAcc (l1 ++ l2)).totalSpend
    ∧ (persAcc (l1 ++ tx :: l2)).totalIncome = (persAcc (l1 ++ l2)).totalIncome
    ∧ (persAcc (l1 ++ tx :: l2)).incomeCount = (persAcc (l1 ++ l2)).incomeCount
    ∧ (persAcc (l1 ++ tx :: l2)).savingsTx = (persAcc (l1 ++ l2)).savingsTx := by
  have hspend : spendAcc (l1 ++ tx :: l2) = spendAcc (l1 ++ l2) := by
    unfold spendAcc
    rw [List.foldl_append, List.foldl_append, List.foldl_cons, spendStep_unknown _ _ hs hr]
  have hsend : sendAmounts (l1 ++ tx :: l2) = sendAmounts (l1 ++ l2) := by
    simp [sendAmounts, List.filter_append, List.filter_cons, hs]
  have hrecv : receiveAmounts (l1 ++ tx :: l2) = receiveAmounts (l1 ++ l2) := by
    simp [receiveAmounts, List.filter_append, List.filter_cons, hr]
  have hrfilt : (l1 ++ tx :: l2).filter (fun t => t.type = "receive")
      = (l1 ++ l2).filter (fun t => t.type = "receive") := by
    simp [List.filter_append, List.filter_cons, hr]
  have hsav : savingsSends (l1 ++ tx :: l2) = savingsSends (l1 ++ l2) := by
    simp [savingsSends, List.filter_append, List.filter_cons, hs]
  have hads : amountDistributionScore sq (l1 ++ tx :: l2)
      = amountDistributionScore sq (l1 ++ l2) := by
    unfold amountDistributionScore
    rw [persAcc_amounts, persAcc_amounts, hsend]
  refine ⟨by simp [analyzeReport, hspend], by simp [categorySpending, hspend], ?_, ?_, ?_,
    ?_, ?_, ?_, ?_, ?_⟩
  · intro hne
    have hne1 : l1 ++ tx :: l2 ≠ [] := by simp
    simp [analyzeTransactions, hne, hne1, analyzeReport, hspend]
  · rw [scores_lookup_amount_distribution, scores_lookup_amount_distribution, hsend, hads]
  · rw [scores_lookup_income_response, scores_lookup_income_response]
  · rw [persAcc_amounts, persAcc_amounts, hsend]
  · rw [persAcc_totalSpend, persAcc_totalSpend, hsend]
  · rw [persAcc_totalIncome, persAcc_totalIncome, hrecv]
  · rw [persAcc_incomeCount, persAcc_incomeCount, hrfilt]
  · rw [persAcc_savingsTx, persAcc_savingsTx, hsav]

/-- Witness for C9 amended: inserting the unrecognized record into the
four-receive list leaves the analyzer report unchanged. -/
theorem unrecognized_type_effect_witness :
    analyzeReport (fourReceives ++ unknownTx :: []) 30 = analyzeReport (fourReceives ++ []) 30
    ∧ analyzeTransactions (fourReceives ++ unknownTx :: []) 30
        = analyzeTransactions (fourReceives ++ []) 30 := by
  have h := unrecognized_type_effect (fun _ => 0) fourReceives [] 30 unknownTx
    (by decide) (by decide)
  exact ⟨h.1, h.2.2.1 (by decide)⟩

/-! ## The selection loop of the archetype matcher -/

theorem argmaxFold_cons (b p : String × ℚ) (l : List (String × ℚ)) :
    argmaxFold b (p :: l) = argmaxFold (if p.2 > b.2 then p else b) l := rfl

theorem argmaxFold_eq_self (l : List (String × ℚ)) :
    ∀ b : String × ℚ, (∀ p ∈ l, p.2 ≤ b.2) → argmaxFold b l = b := by
  induction l with
  | nil => intro b _; rfl
  | cons p l ih =>
    intro b h
    rw [argmaxFold_cons, if_neg (not_lt.mpr (h p (by simp)))]
    exact ih b (fun x hx => h x (by simp [hx]))

theorem argmaxFold_mem (l : List (String × ℚ)) :
    ∀ b : String × ℚ, argmaxFold b l = b ∨ argmaxFold b l ∈ l := by
  induction l with
  | nil => intro b; left; rfl
  | cons p l ih =>
    intro b
    rw [argmaxFold_cons]
    by_cases hp : p.2 > b.2
    · rw [if_pos hp]
      rcases ih p with h | h
      · right; simp [h]
      · right; simp [h]
    · rw [if_neg hp]
      rcases ih b with h | h
      · left; exact h
      · right; simp [h]

theorem argmaxFold_find (l : List (String × ℚ)) :
    ∀ (b : String × ℚ) (M : ℚ) (q : String × ℚ), b.2 < M → (∀ p ∈ l, p.2 ≤ M) →
      l.find? (fun p => p.2 = M) = some q → argmaxFold b l = q := by
  induction l with
  | nil => intro b M q _ _ hfind; simp at hfind
  | cons p l ih =>
    intro b M q hb hall hfind
    by_cases hp : p.2 = M
    · rw [List.find?_cons_of_pos _ (by simp [hp])] at hfind
      obtain rfl := Option.some.inj hfind
      rw [argmaxFold_cons, if_pos (by rw [hp]; exact hb)]
      exact argmaxFold_eq_self l p (fun x hx => hp ▸ hall x (by simp [hx]))
    · rw [List.find?_cons_of_neg _ (by simp [hp])] at hfind
      rw [argmaxFold_cons]
      have hball : ∀ x ∈ l, x.2 ≤ M := fun x hx => hall x (by simp [hx])
      by_cases hgt : p.2 > b.2
      · rw [if_pos hgt]
        exact ih p M q (lt_of_le_of_ne (hall p (by simp)) hp) hball hfind
      · rw [if_neg hgt]
        exact ih b M q hb hball hfind

theorem scoredCatalog_le_max (s : String → ℚ) :
    ∀ p ∈ scoredCatalog s, p.2 ≤ maxArchetypeValue s := by
  have h1 : rewardSeekerScore s ≤ maxArchetypeValue s :=
    le_max_of_le_left (le_max_of_le_left (le_max_of_le_left (le_max_left _ _)))
  have h2 : safetyHoarderScore s ≤ maxArchetypeValue s :=
    le_max_of_le_left (le_max_of_le_left (le_max_of_le_left (le_max_right _ _)))
  have h3 : impulseOptimizerScore s ≤ maxArchetypeValue s :=
    le_max_of_le_left (le_max_of_le_left (le_max_right _ _))
  have h4 : cyclicalSpenderScore s ≤ maxArchetypeValue s :=
    le_max_of_le_left (le_max_right _ _)
  have h5 : strategicPlannerScore s ≤ maxArchetypeValue s := le_max_right _ _
  intro p hp
  simp only [scoredCatalog, archetypeCatalog, List.map_cons, List.map_nil, List.mem_cons,
    List.not_mem_nil, or_false] at hp
  rcases hp with rfl | rfl | rfl | rfl | rfl <;> assumption

theorem max_attained (s : String → ℚ) :
    ∃ p ∈ scoredCatalog s, p.2 = maxArchetypeValue s := by
  have hcases : maxArchetypeValue s = rewardSeekerScore s
      ∨ maxArchetypeValue s = safetyHoarderScore s
      ∨ maxArchetypeValue s = impulseOptimizerScore s
      ∨ maxArchetypeValue s = cyclicalSpenderScore s
      ∨ maxArchetypeValue s = strategicPlannerScore s := by
    unfold maxArchetypeValue
    rcases max_choice (max (max (max (rewardSeekerScore s) (safetyHoarderScore s))
        (impulseOptimizerScore s)) (cyclicalSpenderScore s)) (strategicPlannerScore s) with
      h | h <;> rw [h]
    · rcases max_choice (max (max (rewardSeekerScore s) (safetyHoarderScore s))
          (impulseOptimizerScore s)) (cyclicalSpenderScore s) with h2 | h2 <;> rw [h2]
      · rcases max_choice (max (rewardSeekerScore s) (safetyHoarderScore s))
            (impulseOptimizerScore s) with h3 | h3 <;> rw [h3]
        · rcases max_choice (rewardSeekerScore s) (safetyHoarderScore s) with h4 | h4 <;>
            rw [h4] <;> tauto
        · tauto
      · tauto
    · tauto
  rcases hcases with h | h | h | h | h
  · exact ⟨("The Reward Seeker", rewardSeekerScore s), by simp [scoredCatalog, archetypeCatalog],
      h.symm⟩
  · exact ⟨("The Safety Hoarder", safetyHoarderScore s), by simp [scoredCatalog, archetypeCatalog],
      h.symm⟩
  · exact ⟨("The Impulse Optimizer", impulseOptimizerScore s),
      by simp [scoredCatalog, archetypeCatalog], h.symm⟩
  · exact ⟨("The Cyclical Spender", cyclicalSpenderScore s),
      by simp [scoredCatalog, archetypeCatalog], h.symm⟩
  · exact ⟨("The Strategic Planner", strategicPlannerScore s),
      by simp [scoredCatalog, archetypeCatalog], h.symm⟩

/-! ## Claim C6 (corrected) -/

/-- A score map outside the normal range of the scorer, on which all five
archetype formulas are negative. -/
def negativeScores : String → ℚ := fun k =>
  if k = "transaction_velocity" then -400
  else if k = "amount_distribution" then 100
  else if k = "balance_comfort" then -200
  else if k = "savings_affinity" then -300
  else if k = "income_response" then -500
  else 0

/-- Counterexample to C6 as stated: on a score map where every formula
value is negative, the loop of matchArchetype keeps its initial
bestMatch/bestScore pair (first archetype, score 0.0) and returns The
Reward Seeker even though The Strategic Planner has the strictly largest
formula value. -/
theorem archetype_argmax_counterexample :
    selectArchetype negativeScores = "The Reward Seeker"
    ∧ rewardSeekerScore negativeScores < strategicPlannerScore negativeScores
    ∧ specSelectArchetype negativeScores = "The Strategic Planner" := by
  have h1 : rewardSeekerScore negativeScores = -190 := by
    simp [rewardSeekerScore, negativeScores]
    norm_num
  have h2 : safetyHoarderScore negativeScores = -20 := by
    simp [safetyHoarderScore, negativeScores]
    norm_num
  have h3 : impulseOptimizerScore negativeScores = -40 := by
    simp [impulseOptimizerScore, negativeScores]
    norm_num
  have h4 : cyclicalSpenderScore negativeScores = -20 := by
    simp [cyclicalSpenderScore, negativeScores]
    norm_num
  have h5 : strategicPlannerScore negativeScores = -10 := by
    simp [strategicPlannerScore, negativeScores]
    norm_num
  refine ⟨?_, by rw [h1, h5]; norm_num, ?_⟩
  · simp only [selectArchetype, scoredCatalog, archetypeCatalog, List.map_cons, List.map_nil,
      h1, h2, h3, h4, h5]
    norm_num [argmaxFold]
  · have hM : maxArchetypeValue negativeScores = -10 := by
      unfold maxArchetypeValue
      rw [h1, h2, h3, h4, h5]
      norm_num
    simp only [specSelectArchetype, scoredCatalog, archetypeCatalog, List.map_cons,
      List.map_nil, hM, h1, h2, h3, h4, h5]
    norm_num [List.find?]

/-- C6 amended: matchArchetype always produces a pick from the fixed
catalog, evaluating the five linear formulas; whenever the maximum formula
value is positive (which holds for every score map with values between 0
and 100, in particular every scorer output, missing keys read as 0) the
pick is the first catalog entry attaining the strict maximum; but when all
five formula values are at most 0 the loop returns the first catalog
entry, The Reward Seeker, regardless of where the maximum lies. -/
theorem archetype_selection_characterization (s : String → ℚ) :
    (0 < maxArchetypeValue s → selectArchetype s = specSelectArchetype s)
    ∧ (maxArchetypeValue s ≤ 0 → selectArchetype s = "The Reward Seeker")
    ∧ selectArchetype s ∈ archetypeCatalog.map Prod.fst
    ∧ ((∀ k, 0 ≤ s k ∧ s k ≤ 100) → 0 < maxArchetypeValue s) := by
  have hall := scoredCatalog_le_max s
  refine ⟨?_, ?_, ?_, ?_⟩
  · intro hM
    obtain ⟨p, hp, hp2⟩ := max_attained s
    obtain ⟨q, hq⟩ : ∃ q, (scoredCatalog s).find? (fun x => x.2 = maxArchetypeValue s)
        = some q := by
      rw [← Option.isSome_iff_exists, List.find?_isSome]
      exact ⟨p, hp, by simp [hp2]⟩
    have hsel := argmaxFold_find (scoredCatalog s) ("The Reward Seeker", 0)
      (maxArchetypeValue s) q hM hall hq
    rw [selectArchetype, hsel, specSelectArchetype, hq]
    rfl
  · intro hM
    have hself := argmaxFold_eq_self (scoredCatalog s) ("The Reward Seeker", 0)
      (fun p hp => le_trans (hall p hp) hM)
    rw [selectArchetype, hself]
  · rcases argmaxFold_mem (scoredCatalog s) ("The Reward Seeker", 0) with h | h
    · rw [selectArchetype, h]
      simp [archetypeCatalog]
    · rw [selectArchetype]
      have : (argmaxFold ("The Reward Seeker", 0) (scoredCatalog s)).1
          ∈ (scoredCatalog s).map Prod.fst := List.mem_map_of_mem _ h
      simpa [scoredCatalog, List.map_map, Function.comp] using this
  · intro hk
    have hv := (hk "transaction_velocity").1
    have hir := (hk "income_response").1
    have hbc := (hk "balance_comfort").1
    have hRS : rewardSeekerScore s ≤ maxArchetypeValue s :=
      hall ("The Reward Seeker", rewardSeekerScore s)
        (by simp [scoredCatalog, archetypeCatalog])
    have hSH : safetyHoarderScore s ≤ maxArchetypeValue s :=
      hall ("The Safety Hoarder", safetyHoarderScore s)
        (by simp [scoredCatalog, archetypeCatalog])
    rw [rewardSeekerScore] at hRS
    rw [safetyHoarderScore] at hSH
    have hsum : (0.4 : ℚ) + 0.3 + 0.3 = 1 := by norm_num
    nlinarith [hRS, hSH, hv, hir, hbc]

/-- Witness for C6 amended: on the all-zero score map (every key missing)
the maximum formula value is positive and the selection matches the
first-attainer reference. -/
theorem archetype_selection_characterization_witness :
    0 < maxArchetypeValue (fun _ => 0)
    ∧ selectArchetype (fun _ => 0) = specSelectArchetype (fun _ => 0) := by
  have h := archetype_selection_characterization (fun _ => 0)
  have hM : 0 < maxArchetypeValue (fun _ => 0) := h.2.2.2 (fun _ => by norm_num)
  exact ⟨hM, h.1 hM⟩

/-! ## Claim C7 -/

/-- C7: for every score map the confidence of matchArchetype equals
min(0.5 + (highest - secondHighest)/100, 0.95) over the ascending sorted
formula values, hence lies between 0.5 and 0.95; the sorted list always
has five entries, so the defensive 0.7 default branch for fewer than two
scores is never taken. -/
theorem archetype_confidence_bounds (s : String → ℚ) :
    (matchArchetype s).confidence
      = min (0.5 + ((sortedArchetypeScores s).getD 4 0
          - (sortedArchetypeScores s).getD 3 0) / 100) 0.95
    ∧ 0.5 ≤ (matchArchetype s).confidence
    ∧ (matchArchetype s).confidence ≤ 0.95
    ∧ (sortedArchetypeScores s).length = 5 := by
  have hlen : (sortedArchetypeScores s).length = 5 := by
    rw [sortedArchetypeScores, List.length_insertionSort]
    simp [archetypeValues, scoredCatalog, archetypeCatalog]
  have hsorted : (sortedArchetypeScores s).Sorted (fun x y : ℚ => x ≤ y) :=
    List.sorted_insertionSort _ _
  have h3 : 3 < (sortedArchetypeScores s).length := by rw [hlen]; norm_num
  have h4 : 4 < (sortedArchetypeScores s).length := by rw [hlen]; norm_num
  have hle : (sortedArchetypeScores s).getD 3 0 ≤ (sortedArchetypeScores s).getD 4 0 := by
    rw [List.getD_eq_getElem _ 0 h3, List.getD_eq_getElem _ 0 h4]
    exact List.Sorted.rel_get_of_lt hsorted (by simp)
  have hconf : (matchArchetype s).confidence
      = min (0.5 + ((sortedArchetypeScores s).getD 4 0
          - (sortedArchetypeScores s).getD 3 0) / 100) 0.95 := by
    simp [matchArchetype, matchConfidence, hlen]
  refine ⟨hconf, ?_, ?_, hlen⟩
  · rw [hconf]
    apply le_min _ (by norm_num)
    have : (0 : ℚ) ≤ ((sortedArchetypeScores s).getD 4 0
        - (sortedArchetypeScores s).getD 3 0) / 100 := by
      apply div_nonneg _ (by norm_num)
      linarith
    linarith
  · rw [hconf]
    exact min_le_right _ _

/-! ## Category keys of the spending accumulator -/

theorem addCat_fst_mem (c : String) (a : ℚ) :
    ∀ (l : List (String × ℚ)), ∀ p ∈ addCat l c a, p.1 = c ∨ p.1 ∈ l.map Prod.fst := by
  intro l
  induction l with
  | nil => intro p hp; simp [addCat] at hp; simp [hp]
  | cons q l ih =>
    intro p hp
    obtain ⟨c0, a0⟩ := q
    by_cases hc : c0 = c
    · simp [addCat, hc] at hp
      rcases hp with hp | hp
      · left; simp [hp]
      · right
        exact List.mem_map_of_mem Prod.fst (List.mem_cons_of_mem _ hp)
    · simp only [addCat, if_neg hc, List.mem_cons] at hp
      rcases hp with hp | hp
      · right; simp [hp]
      · rcases ih p hp with h | h
        · left; exact h
        · right; simp [h]

theorem foldl_spendStep_cats_keys (l : List Tx) :
    ∀ acc : SpendAcc, (∀ p ∈ acc.cats, p.1 ≠ "") →
      ∀ p ∈ (l.foldl spendStep acc).cats, p.1 ≠ "" := by
  induction l with
  | nil => intro acc h; exact h
  | cons t l ih =>
    intro acc h
    rw [List.foldl_cons]
    apply ih
    intro p hp
    by_cases hs : t.type = "send"
    · by_cases hc : t.category = ""
      · simp [spendStep, hs, hc] at hp
        exact h p hp
      · simp only [spendStep, hs, if_pos rfl, if_neg hc] at hp
        simp at hp
        rcases addCat_fst_mem t.category t.amount acc.cats p hp with h1 | h1
        · rw [h1]; exact hc
        · obtain ⟨q, hq, hq2⟩ := List.mem_map.mp h1
          rw [← hq2]
          exact h q hq
    · by_cases hr : t.type = "receive" <;> simp [spendStep, hs, hr] at hp <;> exact h p hp

theorem categorySpending_keys (txs : List Tx) :
    ∀ p ∈ categorySpending txs, p.1 ≠ "" := by
  unfold categorySpending spendAcc
  exact foldl_spendStep_cats_keys txs ⟨0, 0, 0, 0, []⟩ (by simp)

/-! ## Claim C3 (corrected) -/

/-- Two send records of equal amount in two categories: a tie in the
category ranking. -/
def tiedSends : List Tx :=
  [⟨"send", 5, "a", 0⟩, ⟨"send", 5, "b", 0⟩]

/-- Counterexample to C3 as stated: on two tied categories the list with
the second-encountered category first is a valid result of the source
(sort.Slice guarantees only sortedness, over an unspecified map iteration
order), yet it differs from the stable first-encounter ranking the claim
asserts. -/
theorem top_categories_tiebreak_counterexample :
    ValidCategoryOrder tiedSends [("b", 5), ("a", 5)]
    ∧ topCategories [("b", 5), ("a", 5)] ≠ specTopCategories tiedSends := by
  have hcs : categorySpending tiedSends = [("a", 5), ("b", 5)] := by decide
  constructor
  · refine ⟨?_, ?_⟩
    · rw [hcs]; decide
    · unfold SortedByAmountDesc
      decide
  · rw [specTopCategories, hcs]
    decide

/-- C3 amended: every list the source can produce for the category
breakdown has at most 5 entries, is sorted in non-increasing order of
amount, dominates every dropped entry, and consists of per-category send
totals with non-empty labels; the order among tied amounts is
unspecified (sort.Slice is not stable and the Go map iteration order is
arbitrary), so no first-encounter tie-break holds. -/
theorem top_categories_sound (txs : List Tx) (l : List (String × ℚ))
    (h : ValidCategoryOrder txs l) :
    (topCategories l).length ≤ 5
    ∧ SortedByAmountDesc (topCategories l)
    ∧ (∀ x ∈ topCategories l, ∀ y ∈ l.drop 5, y.2 ≤ x.2)
    ∧ (∀ x ∈ topCategories l, x ∈ categorySpending txs ∧ x.1 ≠ "") := by
  obtain ⟨hperm, hsorted⟩ := h
  refine ⟨List.length_take_le 5 l, ?_, ?_, ?_⟩
  · exact List.Pairwise.sublist (List.take_sublist 5 l) hsorted
  · have hsp := hsorted
    rw [← List.take_append_drop 5 l] at hsp
    intro x hx y hy
    exact (List.pairwise_append.mp hsp).2.2 x hx y hy
  · intro x hx
    have hxl : x ∈ l := List.mem_of_mem_take hx
    have hxc : x ∈ categorySpending txs := hperm.mem_iff.mp hxl
    exact ⟨hxc, categorySpending_keys txs x hxc⟩

/-- Witness for C3 amended: the canonical first-encounter order of the two
tied categories is itself a valid result, and the theorem applies to it. -/
theorem top_categories_sound_witness :
    ValidCategoryOrder tiedSends [("a", 5), ("b", 5)]
    ∧ (topCategories [("a", 5), ("b", 5)]).length ≤ 5
    ∧ SortedByAmountDesc (topCategories [("a", 5), ("b", 5)]) := by
  have hv : ValidCategoryOrder tiedSends [("a", 5), ("b", 5)] := by
    constructor
    · have hcs : categorySpending tiedSends = [("a", 5), ("b", 5)] := by decide
      rw [hcs]
    · unfold SortedByAmountDesc
      decide
  have h := top_categories_sound tiedSends [("a", 5), ("b", 5)] hv
  exact ⟨hv, h.1, h.2.1⟩

end NeuraPay
